import Mathlib

/-
  Verification of the Teddy hierarchical task scheduler
  (src/locust/teddy), shallowly embedded in Lean 4.

  Python classes become structures, class-level mutable state becomes
  explicit state passing, control-flow exceptions (RescheduleTask /
  RescheduleTaskImmediately / InterruptTaskSet) become an explicit
  signal value, and fallible operations return Except.  Random choices
  (random.randint / random.choice) are modelled by an explicit oracle
  argument that the randomized branches consume.
-/

namespace Teddy

/-- Schedule modes, from teddy_def.TeddyTaskScheduleMode. -/
inductive TeddyTaskScheduleMode
  | Sequential
  | Randomized
  | Fixed_Sequential
  | Fixed_Randomized
deriving DecidableEq, Repr

namespace TeddyTaskScheduleMode

/-- Mirrors TeddyTaskScheduleMode.is_fixed_schedule_mode. -/
def is_fixed_schedule_mode : TeddyTaskScheduleMode → Bool
  | Fixed_Sequential => true
  | Fixed_Randomized => true
  | _ => false

/-- Mirrors TeddyTaskScheduleMode.is_randomomized_schedule_mode (sic). -/
def is_randomomized_schedule_mode : TeddyTaskScheduleMode → Bool
  | Randomized => true
  | Fixed_Randomized => true
  | _ => false

end TeddyTaskScheduleMode

/-- Task-set categories, from teddy_def.TeddyTaskSetType. -/
inductive TeddyTaskSetType
  | Base
  | Func
  | Coverage
  | UserDefined1
  | UserDefined2
deriving DecidableEq, Repr

namespace TeddyTaskSetType

/-- Enum values of the members, in declaration order. -/
def value : TeddyTaskSetType → Nat
  | Base => 1
  | Func => 2
  | Coverage => 3
  | UserDefined1 => 4
  | UserDefined2 => 5

/-- The members of the enum in declaration order
(TeddyTaskSetType.__members__.values()). -/
def members : List TeddyTaskSetType :=
  [Base, Func, Coverage, UserDefined1, UserDefined2]

/-- Mirrors TeddyTaskSetType.get_default_schedule_mode. -/
def get_default_schedule_mode : TeddyTaskSetType → TeddyTaskScheduleMode
  | Coverage => TeddyTaskScheduleMode.Randomized
  | _ => TeddyTaskScheduleMode.Sequential

end TeddyTaskSetType

/-- Errors raised by the teddy layer (TeddyException and friends);
constructors name the failure sites in teddy_task.py / teddy_user.py. -/
inductive TeddyError
  | duplicateOrder (taskset : String)
  | unresolvedFixedTask (taskset : String)
  | emptyFixedTaskList (taskset : String)
  | taskNotFound (taskset : String)
  | tasksetNotFound
  | noCurrentTaskset
deriving DecidableEq, Repr

/-- A task registered by the teddy_task annotation: its method name and
its user-declared order value (teddy_info). -/
structure TaskCfg where
  name : String
  order : Int
deriving DecidableEq, Repr

/-- An entry of a declared fixed_task_list: an int (matched against the
task order), a string (matched against the task name), or a callable
(matched via its __name__ against the task name). -/
inductive FixedTaskRef
  | byOrder (order : Int)
  | byName (nm : String)
  | byMethod (nm : String)
deriving DecidableEq, Repr

/-- One pass of the inner matching loop of the fixed_task_list
normalization in TeddyTaskSetMeta.__new__. -/
def fixedRefMatches (r : FixedTaskRef) (t : TaskCfg) : Bool :=
  match r with
  | FixedTaskRef.byOrder o => t.order == o
  | FixedTaskRef.byName s => t.name == s
  | FixedTaskRef.byMethod s => t.name == s

/-- The static result of TeddyTaskSetMeta.__new__ for one task-set class:
collected tasks (sorted, 0-based indexed by position), the normalized
fixed_task_list when the mode is fixed, and the derived scheduling_tasks. -/
structure TaskSetCfg where
  name : String
  taskset_type : TeddyTaskSetType
  task_schedule_mode : TeddyTaskScheduleMode
  exclusive_schedule : Bool
  tasks : List TaskCfg
  fixed_task_list : Option (List TaskCfg)
  scheduling_tasks : List TaskCfg
deriving DecidableEq, Repr

/-- The dummy task TeddyTaskSetMeta substitutes when a task-set declares
no tasks. -/
def dummy_task : TaskCfg := { name := "_dummy_task", order := 1 }

/-- Default for a task-set class that does not declare
exclusive_schedule (TeddyTaskSetMeta.__new__: default False). -/
def teddyTaskSetMeta_exclusive_schedule (declared : Option Bool) : Bool :=
  declared.getD false

/-- Default for a user class that does not declare exclusive_schedule
(TeddyUserMeta.__new__: default True). -/
def teddyUserMeta_exclusive_schedule (declared : Option Bool) : Bool :=
  declared.getD true

/-- TeddyTaskSetMeta.__new__, the definition-time registration pipeline:
sort collected tasks by order, reject duplicate orders, substitute a
dummy task when empty, default the schedule mode and exclusive flag,
normalize fixed_task_list for fixed modes, and derive scheduling_tasks. -/
def teddyTaskSetMeta_new (classname : String) (taskset_type : TeddyTaskSetType)
    (decl_tasks : List TaskCfg)
    (decl_schedule_mode : Option TeddyTaskScheduleMode)
    (decl_exclusive : Option Bool)
    (decl_fixed_task_list : Option (List FixedTaskRef)) :
    Except TeddyError TaskSetCfg :=
  let tasks0 := List.insertionSort (fun a b => a.order ≤ b.order) decl_tasks
  if (tasks0.map TaskCfg.order).dedup.length != tasks0.length then
    Except.error (TeddyError.duplicateOrder classname)
  else
    let tasks := if tasks0.isEmpty then [dummy_task] else tasks0
    let mode := decl_schedule_mode.getD TeddyTaskScheduleMode.Sequential
    let exclusive := teddyTaskSetMeta_exclusive_schedule decl_exclusive
    if mode.is_fixed_schedule_mode then
      let fixedE : Except TeddyError (List TaskCfg) :=
        match decl_fixed_task_list with
        | none => Except.ok tasks
        | some refs =>
          let normalized := refs.filterMap (fun r => tasks.find? (fixedRefMatches r))
          if normalized.length != refs.length then
            Except.error (TeddyError.unresolvedFixedTask classname)
          else
            Except.ok normalized
      match fixedE with
      | Except.error e => Except.error e
      | Except.ok fixed =>
        if fixed.isEmpty then
          Except.error (TeddyError.emptyFixedTaskList classname)
        else
          Except.ok { name := classname, taskset_type := taskset_type,
                      task_schedule_mode := mode, exclusive_schedule := exclusive,
                      tasks := tasks, fixed_task_list := some fixed,
                      scheduling_tasks := fixed }
    else
      Except.ok { name := classname, taskset_type := taskset_type,
                  task_schedule_mode := mode, exclusive_schedule := exclusive,
                  tasks := tasks, fixed_task_list := none,
                  scheduling_tasks := tasks }

/-- The static result of TeddyUserMeta.__new__ for one user class:
its task-set classes (sorted by taskset type value), the per-category
schedule modes, and the exclusive flag. -/
structure UserCfg where
  tasks : List TaskSetCfg
  taskset_schedule_mode : TeddyTaskSetType → TeddyTaskScheduleMode
  exclusive_schedule : Bool

/-- Modelled from the spec: the user-class attribute
taskset_type_2_schedulable_tasks read by TeddyTopTaskSet is not defined
under src (TeddyUserMeta.__new__ builds the registry under the name
taskset_type_2_tasks); per the spec, the schedulable task-set classes of
a category are the user's task-set classes of that category, in
declared (sorted) order, which is exactly what TeddyUserMeta builds. -/
def taskset_type_2_schedulable_tasks (user : UserCfg) (t : TeddyTaskSetType) :
    List TaskSetCfg :=
  user.tasks.filter (fun ts => ts.taskset_type == t)

/-- First position of the task-set instance whose class name matches;
mirrors the for-loops over self._tasksets that match by class identity
or class name and break at the first hit. -/
def findTasksetIdx (tasksets : List TaskSetCfg) (clsName : String) : Option Nat :=
  match tasksets with
  | [] => none
  | ts :: rest =>
    if ts.name == clsName then some 0
    else (findTasksetIdx rest clsName).map (fun i => i + 1)

/-- First position of a given element of the scheduling list, mirroring
the for-loop in jump_to_taskset that compares instances with the
identity test. -/
def findPosOf (q : Nat) (l : List Nat) : Option Nat :=
  match l with
  | [] => none
  | x :: rest =>
    if x == q then some 0
    else (findPosOf q rest).map (fun i => i + 1)

/-- Per-instance mutable state of a TeddyTaskSet: the current task
cursor (−1 = not started), the execution counter, and the task queue
(represented by the slot indices it holds). -/
structure TaskSetState where
  cur_task_index : Int
  exec_times : Nat
  task_queue : List Nat
deriving DecidableEq, Repr

/-- Fresh TeddyTaskSet.__init__ state. -/
def initTaskSetState : TaskSetState :=
  { cur_task_index := -1, exec_times := 0, task_queue := [] }

/-- Mutable state of a TeddyTopTaskSet instance.  Task-set instances
are represented by their position in user.tasks; taskset_states is the
parallel list of their per-instance states. -/
structure TeddyTopTaskSet where
  taskset_states : List TaskSetState
  cur_taskset_index : Int
  scheduling_tasksets : List Nat
  cur_taskset_type : Option TeddyTaskSetType
  cur_taskset_schedule_mode : Option TeddyTaskScheduleMode
  task_queue : List Nat
deriving DecidableEq, Repr

/-- Replace position i by f of the old value, leaving the rest alone. -/
def modifyAt (f : TaskSetState → TaskSetState) :
    Nat → List TaskSetState → List TaskSetState
  | _, [] => []
  | 0, s :: rest => f s :: rest
  | i + 1, s :: rest => s :: modifyAt f i rest

/-- TeddyTopTaskSet._update_scheduling_tasksets: for each schedulable
class of the current category, append the first instance of that class. -/
def update_scheduling_tasksets (user : UserCfg) (t : TeddyTaskSetType) :
    List Nat :=
  (taskset_type_2_schedulable_tasks user t).filterMap
    (fun cls => findTasksetIdx user.tasks cls.name)

/-- TeddyTopTaskSet.__init__: create one state per task-set instance,
then pick the first category (in declared enum order) whose schedulable
class list is non-empty and install its schedule mode and scheduling
list. -/
def teddyTopTaskSet_init (user : UserCfg) : TeddyTopTaskSet :=
  let base : TeddyTopTaskSet :=
    { taskset_states := user.tasks.map (fun _ => initTaskSetState),
      cur_taskset_index := -1,
      scheduling_tasksets := [],
      cur_taskset_type := none,
      cur_taskset_schedule_mode := none,
      task_queue := [] }
  match TeddyTaskSetType.members.find?
      (fun t => !(taskset_type_2_schedulable_tasks user t).isEmpty) with
  | some t =>
    { base with
      cur_taskset_type := some t,
      cur_taskset_schedule_mode := some (user.taskset_schedule_mode t),
      scheduling_tasksets := update_scheduling_tasksets user t }
  | none => base

/-- Control-flow signals the scheduler raises (locust exceptions used as
scheduling directives). -/
inductive TeddySignal
  | rescheduleTaskImmediately
  | rescheduleTask
  | interruptTaskSet (reschedule : Bool)
deriving DecidableEq, Repr

/-- A jump-call identifier for a task: an order number, a task name, or
a task method (which _locate_task converts to its teddy order). -/
inductive TaskRef
  | byOrder (order : Int)
  | byName (nm : String)
  | byMethod (order : Int)
deriving DecidableEq, Repr

/-- The match key _locate_task derives from the identifier: callables
are converted to their order, so only int and str keys remain. -/
def locate_task_target (r : TaskRef) : Int ⊕ String :=
  match r with
  | TaskRef.byOrder o => Sum.inl o
  | TaskRef.byMethod o => Sum.inl o
  | TaskRef.byName s => Sum.inr s

/-- The scan of _locate_task over scheduling_tasks: first slot whose
name (string key) or order (int key) matches. -/
def find_task_index (tasks : List TaskCfg) (target : Int ⊕ String) : Option Nat :=
  match tasks with
  | [] => none
  | t :: rest =>
    let matched :=
      match target with
      | Sum.inr s => t.name == s
      | Sum.inl o => t.order == o
    if matched then some 0
    else (find_task_index rest target).map (fun i => i + 1)

/-- TeddyTaskSet._locate_task: none picks slot 0 (deterministic modes)
or the random oracle's slot (randomized modes); otherwise scan and fail
with the task-not-found error. -/
def locate_task (cfg : TaskSetCfg) (rand : Nat) (r : Option TaskRef) :
    Except TeddyError Nat :=
  match r with
  | none =>
    if cfg.task_schedule_mode.is_randomomized_schedule_mode then Except.ok rand
    else Except.ok 0
  | some ref =>
    match find_task_index cfg.scheduling_tasks (locate_task_target ref) with
    | some i => Except.ok i
    | none => Except.error (TeddyError.taskNotFound cfg.name)

/-- TeddyTaskSet._update_task_index_info: set the cursor and replace the
task queue by the selected slot. -/
def update_task_index_info (st : TaskSetState) (task_index : Nat) : TaskSetState :=
  { st with cur_task_index := (task_index : Int), task_queue := [task_index] }

/-- TeddyTopTaskSet.get_cur_taskset, as the position (into user.tasks)
of the current task-set instance. -/
def get_cur_taskset_pos (st : TeddyTopTaskSet) : Option Nat :=
  if st.cur_taskset_index == -1 then none
  else st.scheduling_tasksets.get? st.cur_taskset_index.toNat

/-- TeddyTopTaskSet._get_next_taskset_index: the random oracle's index
for randomized category modes, else rotate the cursor. -/
def get_next_taskset_index (st : TeddyTopTaskSet) (rand : Nat) : Int :=
  match st.cur_taskset_schedule_mode with
  | some m =>
    if m.is_randomomized_schedule_mode then (rand : Int)
    else (st.cur_taskset_index + 1) % (st.scheduling_tasksets.length : Int)
  | none => (st.cur_taskset_index + 1) % (st.scheduling_tasksets.length : Int)

/-- TeddyTopTaskSet.jump_to_task: reporting touches no scheduler state;
then _locate_task validates the identifier (raising without any state
change on failure), and only then the cursor, queue and execution
counter of the active task-set are updated and a reschedule signal is
raised. -/
def jump_to_task (user : UserCfg) (st : TeddyTopTaskSet) (rand : Nat)
    (r : Option TaskRef) (immediately : Bool) :
    TeddyTopTaskSet × Except TeddyError TeddySignal :=
  match get_cur_taskset_pos st with
  | none => (st, Except.error TeddyError.noCurrentTaskset)
  | some p =>
    match user.tasks.get? p with
    | none => (st, Except.error TeddyError.noCurrentTaskset)
    | some cfg =>
      match locate_task cfg rand r with
      | Except.error e => (st, Except.error e)
      | Except.ok i =>
        let st2 :=
          { st with taskset_states :=
              (modifyAt (fun s => { update_task_index_info s i with exec_times := 0 })
                p st.taskset_states) }
        (st2, Except.ok (if immediately then TeddySignal.rescheduleTaskImmediately
                         else TeddySignal.rescheduleTask))

/-- The mutations jump_to_taskset performs on the outgoing task-set
before validating the target task identifier: reset its execution
counter and its task cursor. -/
def jump_outgoing_reset (st : TeddyTopTaskSet) (p_cur : Nat) : TeddyTopTaskSet :=
  { st with taskset_states :=
      (modifyAt (fun s => { s with exec_times := 0, cur_task_index := -1 })
        p_cur st.taskset_states) }

/-- The top-level bookkeeping jump_to_taskset performs before validating
the target task identifier: move the task-set cursor (updating category,
mode and scheduling list when a business call crosses categories) and
replace the top task queue by the target instance. -/
def jump_update_top (user : UserCfg) (st : TeddyTopTaskSet)
    (p_cur q : Nat) (to_ts_idx : Int) : TeddyTopTaskSet :=
  let st2 :=
    if to_ts_idx != -1 then
      { st with cur_taskset_index := to_ts_idx }
    else
      let to_type := (user.tasks.get? q).map TaskSetCfg.taskset_type
      let cur_type := (user.tasks.get? p_cur).map TaskSetCfg.taskset_type
      let st1b :=
        if to_type != cur_type then
          { st with
            cur_taskset_type := to_type,
            cur_taskset_schedule_mode :=
              to_type.map user.taskset_schedule_mode,
            scheduling_tasksets :=
              match to_type with
              | some t => update_scheduling_tasksets user t
              | none => st.scheduling_tasksets }
        else st
      match findPosOf q st1b.scheduling_tasksets with
      | some i => { st1b with cur_taskset_index := (i : Int) }
      | none => st1b
  { st2 with task_queue := [q] }

/-- TeddyTopTaskSet.jump_to_taskset: resolve the target task-set (a
None target means category scheduling, the auto-advance path), fall back
to jump_to_task for a business self-jump, otherwise reset the outgoing
task-set, move the top-level cursor, and only then validate the target
task identifier; on success install the target cursor and raise
InterruptTaskSet. -/
def jump_to_taskset (user : UserCfg) (st : TeddyTopTaskSet) (rand : Nat)
    (tsRef : Option String) (taskRef : Option TaskRef)
    (immediately : Bool) : TeddyTopTaskSet × Except TeddyError TeddySignal :=
  match get_cur_taskset_pos st with
  | none => (st, Except.error TeddyError.noCurrentTaskset)
  | some p_cur =>
    let target : Except TeddyError (Int × Nat) :=
      match tsRef with
      | none =>
        let ti := get_next_taskset_index st rand
        match st.scheduling_tasksets.get? ti.toNat with
        | some q => Except.ok (ti, q)
        | none => Except.error TeddyError.noCurrentTaskset
      | some nm =>
        match findTasksetIdx user.tasks nm with
        | some q => Except.ok (-1, q)
        | none => Except.error TeddyError.tasksetNotFound
    match target with
    | Except.error e => (st, Except.error e)
    | Except.ok (to_ts_idx, q) =>
      if q == p_cur && to_ts_idx == -1 then
        jump_to_task user st rand taskRef immediately
      else
        let stPre := jump_update_top user (jump_outgoing_reset st p_cur) p_cur q to_ts_idx
        match user.tasks.get? q with
        | none => (stPre, Except.error TeddyError.noCurrentTaskset)
        | some to_cfg =>
          match locate_task to_cfg rand taskRef with
          | Except.error e => (stPre, Except.error e)
          | Except.ok i =>
            let st4 :=
              { stPre with taskset_states :=
                  (modifyAt (fun s => update_task_index_info s i) q stPre.taskset_states) }
            (st4, Except.ok (TeddySignal.interruptTaskSet immediately))

/-- TeddyTaskSet.get_next_task: randomized modes take the oracle's slot,
else rotate the cursor modulo the scheduling-task count; the new cursor
is the returned slot. -/
def get_next_task (mode : TeddyTaskScheduleMode) (num_scheduling_tasks : Nat)
    (rand : Nat) (cur_task_index : Int) : Int :=
  if mode.is_randomomized_schedule_mode then (rand : Int)
  else (cur_task_index + 1) % (num_scheduling_tasks : Int)

/-- Cursor after k successive get_next_task calls from a given cursor,
with the random oracle indexed by call number. -/
def get_next_task_iter (mode : TeddyTaskScheduleMode) (num_scheduling_tasks : Nat)
    (rands : Nat → Nat) (cur : Int) : Nat → Int
  | 0 => cur
  | k + 1 =>
    get_next_task mode num_scheduling_tasks (rands k)
      (get_next_task_iter mode num_scheduling_tasks rands cur k)

/-- The argument tuple of the auto-advance call
parent.jump_to_taskset(None, None, immediately=False,
report_task_exec_finish=False) issued by execute_next_task. -/
structure AutoJumpCall where
  taskset_target : Option String
  task_target : Option TaskRef
  immediately : Bool
  report_task_exec_finish : Bool
deriving DecidableEq, Repr

/-- The post-execution scheduling decision of
TeddyTaskSet.execute_next_task: exclusive task-sets (or users) change
nothing; otherwise the execution counter is incremented and, once it
reaches the scheduling-task count, the deferred, report-suppressed
auto-advance call is issued. -/
def execute_next_task (taskset_exclusive user_exclusive : Bool)
    (num_scheduling_tasks : Nat) (exec_times : Nat) :
    Nat × Option AutoJumpCall :=
  if taskset_exclusive || user_exclusive then (exec_times, none)
  else
    let e := exec_times + 1
    if num_scheduling_tasks ≤ e then
      (e, some { taskset_target := none, task_target := none,
                 immediately := false, report_task_exec_finish := false })
    else (e, none)

/-- The id formula of _gen_user_id (TeddyUserMeta.__new__): time-based
high bits shifted left by 10, or-ed with the per-class sequence counter. -/
def user_id_of (now seq : Nat) : Nat := (now <<< 10) ||| seq

/-- One _gen_user_id call for a user class (named by its class name):
increment that class's own sequence counter and derive the id from the
current unix time in seconds.  Returns the updated counter table and
the generated id. -/
def gen_user_id_for (seqs : String → Nat) (cls : String) (now : Nat) :
    (String → Nat) × Nat :=
  let seq := seqs cls + 1
  (fun c => if c == cls then seq else seqs c, user_id_of now seq)

/-- A virtual user as the registry sees it. -/
structure TUser where
  user_id : Int
  user_name : String
  user_logic_id : Int
deriving DecidableEq, Repr

/-- A Python dict key as used by the registry's inner buckets: an int
(user id or logic id) or a string (user name). -/
abbrev DictKey := Int ⊕ String

/-- Insert or overwrite a key in an association-list dict. -/
def alistInsert {κ ν : Type} [BEq κ] (k : κ) (v : ν) :
    List (κ × ν) → List (κ × ν)
  | [] => [(k, v)]
  | (k0, v0) :: rest =>
    if k0 == k then (k0, v) :: rest else (k0, v0) :: alistInsert k v rest

/-- Delete a key from an association-list dict. -/
def alistRemove {κ ν : Type} [BEq κ] (k : κ) :
    List (κ × ν) → List (κ × ν)
  | [] => []
  | (k0, v0) :: rest =>
    if k0 == k then rest else (k0, v0) :: alistRemove k rest

/-- Key membership in an association-list dict. -/
def alistContains {κ ν : Type} [BEq κ] (k : κ) (l : List (κ × ν)) : Bool :=
  l.any (fun kv => kv.1 == k)

/-- Lookup in an association-list dict. -/
def alistGet? {κ ν : Type} [BEq κ] (k : κ) : List (κ × ν) → Option ν
  | [] => none
  | (k0, v0) :: rest => if k0 == k then some v0 else alistGet? k rest

/-- The two secondary indices of TeddyUserMgr that the name/logic-id
update protocol maintains. -/
structure TeddyUserMgr where
  user_name_2_users : List (String × List (DictKey × TUser))
  user_logic_id_2_users : List (Int × List (DictKey × TUser))
deriving DecidableEq, Repr

/-- The empty registry (TeddyUserMgr.__init__). -/
def emptyUserMgr : TeddyUserMgr :=
  { user_name_2_users := [], user_logic_id_2_users := [] }

/-- TeddyUserMgr.__remove_user_from_user_name_dict: skip falsy or absent
names, skip buckets not holding the user id as a key, else delete the
user-id key and prune an emptied bucket. -/
def remove_user_from_user_name_dict (mgr : TeddyUserMgr)
    (user_name : String) (user_id : Int) : TeddyUserMgr :=
  if user_name == "" then mgr
  else
    match alistGet? user_name mgr.user_name_2_users with
    | none => mgr
    | some bucket =>
      if !(alistContains (Sum.inl user_id) bucket) then mgr
      else
        let bucket2 := alistRemove (Sum.inl user_id) bucket
        if bucket2.isEmpty then
          { mgr with user_name_2_users :=
              (alistRemove user_name mgr.user_name_2_users) }
        else
          { mgr with user_name_2_users :=
              (alistInsert user_name bucket2 mgr.user_name_2_users) }

/-- TeddyUserMgr.__remove_user_from_logic_id_dict: same protocol keyed
by logic id, 0 playing the falsy role. -/
def remove_user_from_logic_id_dict (mgr : TeddyUserMgr)
    (user_logic_id : Int) (user_id : Int) : TeddyUserMgr :=
  if user_logic_id == 0 then mgr
  else
    match alistGet? user_logic_id mgr.user_logic_id_2_users with
    | none => mgr
    | some bucket =>
      if !(alistContains (Sum.inl user_id) bucket) then mgr
      else
        let bucket2 := alistRemove (Sum.inl user_id) bucket
        if bucket2.isEmpty then
          { mgr with user_logic_id_2_users :=
              (alistRemove user_logic_id mgr.user_logic_id_2_users) }
        else
          { mgr with user_logic_id_2_users :=
              (alistInsert user_logic_id bucket2 mgr.user_logic_id_2_users) }

/-- TeddyUserMgr._on_update_user_name: remove under the old name, then
insert into the new name's bucket.  The insertion key is the code's:
user_name_users[user.user_name] = user, i.e. the bucket entry is keyed
by the user NAME, not the user id. -/
def on_update_user_name (mgr : TeddyUserMgr) (user : TUser)
    (old_user_name : String) : TeddyUserMgr :=
  let mgr1 := remove_user_from_user_name_dict mgr old_user_name user.user_id
  if user.user_name == "" then mgr1
  else
    let bucket := (alistGet? user.user_name mgr1.user_name_2_users).getD []
    let bucket2 := alistInsert (Sum.inr user.user_name : DictKey) user bucket
    { mgr1 with user_name_2_users :=
        (alistInsert user.user_name bucket2 mgr1.user_name_2_users) }

/-- TeddyUserMgr._on_update_user_logic_id: remove under the old logic
id, then insert into the new logic id's bucket keyed by the user id
(logic_id_users[user.user_id] = user). -/
def on_update_user_logic_id (mgr : TeddyUserMgr) (user : TUser)
    (old_user_logic_id : Int) : TeddyUserMgr :=
  let mgr1 := remove_user_from_logic_id_dict mgr old_user_logic_id user.user_id
  if user.user_logic_id == 0 then mgr1
  else
    let bucket := (alistGet? user.user_logic_id mgr1.user_logic_id_2_users).getD []
    let bucket2 := alistInsert (Sum.inl user.user_id : DictKey) user bucket
    { mgr1 with user_logic_id_2_users :=
        (alistInsert user.user_logic_id bucket2 mgr1.user_logic_id_2_users) }

/-- Message direction, from teddy_def.TeddyMsgType. -/
inductive TeddyMsgType
  | Send
  | Recv
deriving DecidableEq, Repr

/-- A TeddyMsgRecord as appended to teddy_info (msg_type, msg_id,
msg_len, status). -/
structure TeddyMsgRecord where
  msg_type : TeddyMsgType
  msg_id : Int
  msg_len : Int
  status : Int
deriving DecidableEq, Repr

/-- The per-task statistics fields of teddy_info touched by
_report_send_or_recv. -/
structure TaskStats where
  total_send_bytes : Int
  total_recv_bytes : Int
  send_msgs : List TeddyMsgRecord
  recv_msgs : List TeddyMsgRecord
deriving DecidableEq, Repr

/-- The statistics fields as reset at the start of a task execution. -/
def emptyTaskStats : TaskStats :=
  { total_send_bytes := 0, total_recv_bytes := 0,
    send_msgs := [], recv_msgs := [] }

/-- The real-time event fired to locust.events.send_msg / recv_msg. -/
structure MsgEvent where
  msg_id : Int
  msg_size : Int
  status : Int
deriving DecidableEq, Repr

/-- TeddyTaskSet._report_send_or_recv: append a record to the proper
message list (the record's status field is written as the literal 0 in
the code), add the size to the proper byte counter, and fire the
real-time event with the given status. -/
def report_send_or_recv (stats : TaskStats) (msg_type : TeddyMsgType)
    (msg_id msg_size : Int) (status : Int) : TaskStats × MsgEvent :=
  let record : TeddyMsgRecord :=
    { msg_type := msg_type, msg_id := msg_id, msg_len := msg_size, status := 0 }
  let stats2 :=
    match msg_type with
    | TeddyMsgType.Send =>
      { stats with send_msgs := stats.send_msgs ++ [record],
                   total_send_bytes := stats.total_send_bytes + msg_size }
    | TeddyMsgType.Recv =>
      { stats with recv_msgs := stats.recv_msgs ++ [record],
                   total_recv_bytes := stats.total_recv_bytes + msg_size }
  (stats2, { msg_id := msg_id, msg_size := msg_size, status := status })

/-- TeddyTaskSet.report_send delegates with the default status 0. -/
def report_send (stats : TaskStats) (msg_id msg_size : Int) :
    TaskStats × MsgEvent :=
  report_send_or_recv stats TeddyMsgType.Send msg_id msg_size 0

/-- TeddyTaskSet.report_recv delegates with the caller's status. -/
def report_recv (stats : TaskStats) (msg_id msg_size : Int) (status : Int) :
    TaskStats × MsgEvent :=
  report_send_or_recv stats TeddyMsgType.Recv msg_id msg_size status

/-! Helper lemmas. -/

theorem get_next_task_iter_seq (mode : TeddyTaskScheduleMode)
    (hm : mode.is_randomomized_schedule_mode = false)
    (N : Nat) (rands : Nat → Nat) (k : Nat) :
    get_next_task_iter mode N rands (-1) (k + 1) = (k : Int) % (N : Int) := by
  induction k with
  | zero =>
    simp [get_next_task_iter, get_next_task, hm]
  | succ k ih =>
    rw [get_next_task_iter, ih]
    simp only [get_next_task, hm, Bool.false_eq_true, if_false]
    push_cast
    rw [Int.emod_add_emod]

/-! Theorems for the claims. -/

/-- C3: in Sequential (or Fixed_Sequential) mode with N schedulable
tasks, starting fresh (cursor −1), the i-th of N successive
get_next_task calls returns slot i − 1, so all N slots are visited, each
exactly once, and the (N+1)-th call returns slot 0 again. -/
theorem sequential_mode_round_robin (mode : TeddyTaskScheduleMode)
    (hm : mode.is_randomomized_schedule_mode = false)
    (N : Nat) (hN : 0 < N) (rands : Nat → Nat) :
    (∀ i : Nat, i < N → get_next_task_iter mode N rands (-1) (i + 1) = (i : Int))
    ∧ ((List.range N).map
        (fun i => get_next_task_iter mode N rands (-1) (i + 1))).Nodup
    ∧ get_next_task_iter mode N rands (-1) (N + 1) = 0 := by
  have hpt : ∀ i : Nat, i < N →
      get_next_task_iter mode N rands (-1) (i + 1) = (i : Int) := by
    intro i hi
    rw [get_next_task_iter_seq mode hm N rands i]
    exact Int.emod_eq_of_lt (by exact_mod_cast Nat.zero_le i)
      (by exact_mod_cast hi)
  refine ⟨hpt, ?_, ?_⟩
  · have hmap : (List.range N).map
        (fun i => get_next_task_iter mode N rands (-1) (i + 1))
        = (List.range N).map Int.ofNat := by
      apply List.map_congr_left
      intro i hi
      exact hpt i (List.mem_range.mp hi)
    rw [hmap]
    exact (List.nodup_range N).map (by intro a b h; exact Int.ofNat.inj h)
  · rw [get_next_task_iter_seq mode hm N rands N]
    exact Int.emod_self

/-- Witness for sequential_mode_round_robin: a 3-task sequential
task-set returns slot 1 on its second call. -/
theorem sequential_mode_round_robin_witness :
    get_next_task_iter TeddyTaskScheduleMode.Sequential 3 (fun _ => 0) (-1) 2 = (1 : Int) :=
  (sequential_mode_round_robin TeddyTaskScheduleMode.Sequential rfl 3
    (by norm_num) (fun _ => 0)).1 1 (by norm_num)

/-- C2: after a task executes in a non-exclusive setting, the execution
counter is incremented and the deferred, report-suppressed auto-advance
call to the category scheduler is issued exactly when the counter
reaches the schedulable-task count; an exclusive task-set or user leaves
the counter untouched and never auto-advances. -/
theorem execute_next_task_exclusive_policy (ts_ex u_ex : Bool) (N e : Nat) :
    (ts_ex = false → u_ex = false →
      execute_next_task ts_ex u_ex N e =
        (e + 1,
          if N ≤ e + 1 then
            some { taskset_target := none, task_target := none,
                   immediately := false, report_task_exec_finish := false }
          else none))
    ∧ ((ts_ex = true ∨ u_ex = true) →
        execute_next_task ts_ex u_ex N e = (e, none))
    ∧ (ts_ex = false → u_ex = false → e < N →
        (((execute_next_task ts_ex u_ex N e).2).isSome ↔ e + 1 = N)) := by
  refine ⟨?_, ?_, ?_⟩
  · intro h1 h2
    subst h1; subst h2
    by_cases hc : N ≤ e + 1 <;> simp [execute_next_task, hc]
  · intro h
    rcases h with h | h <;> subst h <;> simp [execute_next_task]
  · intro h1 h2 hlt
    subst h1; subst h2
    by_cases hc : N ≤ e + 1
    · simp [execute_next_task, hc]
      omega
    · simp [execute_next_task, hc]
      omega

/-- Witness for execute_next_task_exclusive_policy: a non-exclusive
3-task task-set auto-advances (deferred, completion report suppressed)
on its 3rd execution and not on its 2nd. -/
theorem execute_next_task_exclusive_policy_witness :
    execute_next_task false false 3 2 =
      (3, some { taskset_target := none, task_target := none,
                 immediately := false, report_task_exec_finish := false })
    ∧ execute_next_task false false 3 1 = (2, none) := by
  constructor
  · have h := (execute_next_task_exclusive_policy false false 3 2).1 rfl rfl
    simpa using h
  · have h := (execute_next_task_exclusive_policy false false 3 1).1 rfl rfl
    simpa using h

/-- C9: a TeddyUser subclass that does not declare exclusive_schedule
defaults to exclusive_schedule = True (while a task-set defaults to
False), and with the default user flag the auto-advance of
execute_next_task never fires and the counter is never incremented,
whatever the task-set declares. -/
theorem default_user_exclusive_disables_auto_advance :
    teddyUserMeta_exclusive_schedule none = true
    ∧ teddyTaskSetMeta_exclusive_schedule none = false
    ∧ ∀ (ts_ex : Bool) (N e : Nat),
        execute_next_task ts_ex (teddyUserMeta_exclusive_schedule none) N e = (e, none) := by
  refine ⟨rfl, rfl, ?_⟩
  intro ts_ex N e
  simp [execute_next_task, teddyUserMeta_exclusive_schedule]

/-- C6 (code bug): report_recv with status 5 appends a record whose
status field is the literal 0 — the given status reaches only the
real-time event — while report_send does append the given message id
and byte length. -/
theorem report_recv_drops_status_in_record :
    ((report_recv emptyTaskStats 1 10 5).1.recv_msgs.map TeddyMsgRecord.status = [0])
    ∧ ¬ ((report_recv emptyTaskStats 1 10 5).1.recv_msgs.map TeddyMsgRecord.status = [5])
    ∧ (report_recv emptyTaskStats 1 10 5).2.status = 5
    ∧ (report_send emptyTaskStats 2 20).1.send_msgs =
        [{ msg_type := TeddyMsgType.Send, msg_id := 2, msg_len := 20, status := 0 }] := by
  refine ⟨rfl, ?_, rfl, rfl⟩
  decide

/-- A concrete user for exercising the registry name-update protocol. -/
def userAlice : TUser := { user_id := 7, user_name := "alice", user_logic_id := 0 }

/-- C5 (code bug): a name update inserts the registry entry keyed by the
user NAME (user_name_users[user.user_name] = user), so the entry is not
findable by user id and the removal helper (which looks the user id up)
leaves the bucket untouched: the entry leaks and the bucket is never
pruned. -/
theorem user_name_bucket_keyed_by_name_not_id :
    (on_update_user_name emptyUserMgr userAlice "").user_name_2_users =
      [("alice", [(Sum.inr "alice", userAlice)])]
    ∧ alistContains (Sum.inl (7 : Int))
        ((alistGet? "alice"
          (on_update_user_name emptyUserMgr userAlice "").user_name_2_users).getD [])
        = false
    ∧ remove_user_from_user_name_dict
        (on_update_user_name emptyUserMgr userAlice "") "alice" 7 =
      on_update_user_name emptyUserMgr userAlice "" := by
  refine ⟨rfl, rfl, rfl⟩

/-- C8 counterexample: two users of different user classes generated in
the same second with equal per-class sequence counters receive the SAME
id, so ids are not globally unique across classes. -/
theorem user_id_collision_across_classes :
    "UserA" ≠ "UserB"
    ∧ (gen_user_id_for (fun _ => 0) "UserA" 1700000000).2 =
      (gen_user_id_for ((gen_user_id_for (fun _ => 0) "UserA" 1700000000).1)
        "UserB" 1700000000).2 := by
  refine ⟨by decide, rfl⟩

/-- C8 amended: within one user class the ids are strictly increasing —
hence pairwise distinct — as long as the wall clock is non-decreasing
between generations and the per-class sequence counter stays below the
10-bit field (2^10); they follow id = (seconds << 10) | seq. -/
theorem user_id_monotone_within_class (t1 t2 s1 s2 : Nat)
    (ht : t1 ≤ t2) (hs : s1 < s2) (hb : s2 < 1024) :
    user_id_of t1 s1 < user_id_of t2 s2 := by
  have hpow : (2 : Nat) ^ 10 = 1024 := by norm_num
  have e1 : user_id_of t1 s1 = 2 ^ 10 * t1 + s1 := by
    unfold user_id_of
    rw [Nat.shiftLeft_eq, Nat.mul_comm,
      ← Nat.mul_add_lt_is_or (by omega) t1]
  have e2 : user_id_of t2 s2 = 2 ^ 10 * t2 + s2 := by
    unfold user_id_of
    rw [Nat.shiftLeft_eq, Nat.mul_comm,
      ← Nat.mul_add_lt_is_or (by omega) t2]
  rw [e1, e2, hpow]
  omega

/-- Witness for user_id_monotone_within_class: two successive ids of one
class in the same second are strictly increasing. -/
theorem user_id_monotone_within_class_witness :
    user_id_of 1700000000 1 < user_id_of 1700000000 2 :=
  user_id_monotone_within_class 1700000000 1700000000 1 2 le_rfl
    (by norm_num) (by norm_num)

theorem dedup_length_eq_iff {α : Type} [DecidableEq α] (l : List α) :
    l.dedup.length = l.length ↔ l.Nodup := by
  constructor
  · intro h
    have he := (List.dedup_sublist l).eq_of_length h
    have hd := l.nodup_dedup
    rwa [he] at hd
  · intro h
    rw [List.dedup_eq_self.mpr h]

instance instIsTotalTaskOrder : IsTotal TaskCfg (fun a b => a.order ≤ b.order) :=
  ⟨fun a b => Int.le_total a.order b.order⟩

instance instIsTransTaskOrder : IsTrans TaskCfg (fun a b => a.order ≤ b.order) :=
  ⟨fun _ _ _ hab hbc => le_trans hab hbc⟩

theorem meta_new_of_dup (c : String) (tst : TeddyTaskSetType)
    (dt : List TaskCfg) (dm : Option TeddyTaskScheduleMode)
    (de : Option Bool) (df : Option (List FixedTaskRef))
    (h : ¬ (dt.map TaskCfg.order).Nodup) :
    teddyTaskSetMeta_new c tst dt dm de df =
      Except.error (TeddyError.duplicateOrder c) := by
  have hperm : (List.insertionSort (fun a b => a.order ≤ b.order) dt).Perm dt :=
    List.perm_insertionSort _ _
  have hnd0 : ¬ ((List.insertionSort (fun a b => a.order ≤ b.order) dt).map
      TaskCfg.order).Nodup := by
    intro hx
    exact h (((hperm.map TaskCfg.order).nodup_iff).mp hx)
  have hc : (((List.insertionSort (fun a b => a.order ≤ b.order) dt).map
      TaskCfg.order).dedup.length
      != (List.insertionSort (fun a b => a.order ≤ b.order) dt).length) = true := by
    rw [bne_iff_ne]
    intro he
    apply hnd0
    rw [← dedup_length_eq_iff]
    rw [he, List.length_map]
  simp only [teddyTaskSetMeta_new, hc, if_true]

theorem meta_new_cond_false (dt : List TaskCfg)
    (h : (dt.map TaskCfg.order).Nodup) :
    (((List.insertionSort (fun a b => a.order ≤ b.order) dt).map
      TaskCfg.order).dedup.length
      != (List.insertionSort (fun a b => a.order ≤ b.order) dt).length) = false := by
  have hperm : (List.insertionSort (fun a b => a.order ≤ b.order) dt).Perm dt :=
    List.perm_insertionSort _ _
  have hnd0 : ((List.insertionSort (fun a b => a.order ≤ b.order) dt).map
      TaskCfg.order).Nodup :=
    ((hperm.map TaskCfg.order).nodup_iff).mpr h
  rw [bne_eq_false_iff_eq, List.dedup_eq_self.mpr hnd0, List.length_map]

theorem meta_new_ok_tasks (c : String) (tst : TeddyTaskSetType)
    (dt : List TaskCfg) (dm : Option TeddyTaskScheduleMode)
    (de : Option Bool) (df : Option (List FixedTaskRef)) (cfg : TaskSetCfg)
    (h : teddyTaskSetMeta_new c tst dt dm de df = Except.ok cfg) :
    cfg.tasks =
      (if (List.insertionSort (fun a b => a.order ≤ b.order) dt).isEmpty
       then [dummy_task]
       else List.insertionSort (fun a b => a.order ≤ b.order) dt) := by
  simp only [teddyTaskSetMeta_new] at h
  repeat' split at h
  all_goals
    first
      | exact Except.noConfusion h
      | (injection h with h2
         subst h2
         simp_all)

theorem meta_new_nodup_no_dup_error (c : String) (tst : TeddyTaskSetType)
    (dt : List TaskCfg) (dm : Option TeddyTaskScheduleMode)
    (de : Option Bool) (df : Option (List FixedTaskRef))
    (h : (dt.map TaskCfg.order).Nodup) :
    teddyTaskSetMeta_new c tst dt dm de df ≠
      Except.error (TeddyError.duplicateOrder c) := by
  cases df with
  | none =>
    simp only [teddyTaskSetMeta_new, meta_new_cond_false dt h, Bool.false_eq_true,
      if_false]
    repeat' split
    all_goals simp
  | some refs =>
    simp only [teddyTaskSetMeta_new, meta_new_cond_false dt h, Bool.false_eq_true,
      if_false]
    repeat' split
    all_goals
      try (rename_i heq
           repeat' split at heq)
    all_goals try simp_all
    all_goals (rw [← heq]; simp)

/-- C7: registration of a task-set fails with the duplicate-order error
naming the task-set exactly when two declared tasks share an order
value; on success the registered task list is a permutation of the
declared tasks arranged in strictly ascending order of their order
values (their 0-based position being the assigned index). -/
theorem taskset_registration_order_uniqueness (c : String)
    (tst : TeddyTaskSetType) (dt : List TaskCfg)
    (dm : Option TeddyTaskScheduleMode) (de : Option Bool)
    (df : Option (List FixedTaskRef)) (hne : dt ≠ []) :
    (teddyTaskSetMeta_new c tst dt dm de df =
        Except.error (TeddyError.duplicateOrder c)
      ↔ ¬ (dt.map TaskCfg.order).Nodup)
    ∧ ∀ cfg, teddyTaskSetMeta_new c tst dt dm de df = Except.ok cfg →
        cfg.tasks.Perm dt
        ∧ cfg.tasks.Pairwise (fun a b => a.order < b.order) := by
  constructor
  · constructor
    · intro h
      by_contra hnd
      exact meta_new_nodup_no_dup_error c tst dt dm de df hnd h
    · exact meta_new_of_dup c tst dt dm de df
  · intro cfg h
    have hnd : (dt.map TaskCfg.order).Nodup := by
      by_contra hnd
      rw [meta_new_of_dup c tst dt dm de df hnd] at h
      exact absurd h (by simp)
    have hperm : (List.insertionSort (fun a b => a.order ≤ b.order) dt).Perm dt :=
      List.perm_insertionSort _ _
    have hnonempty :
        (List.insertionSort (fun a b => a.order ≤ b.order) dt).isEmpty = false := by
      rw [List.isEmpty_eq_false]
      intro hx
      apply hne
      have hp2 := hperm.symm
      rw [hx] at hp2
      exact hp2.eq_nil
    have htasks := meta_new_ok_tasks c tst dt dm de df cfg h
    rw [hnonempty] at htasks
    simp only [Bool.false_eq_true, if_false] at htasks
    constructor
    · rw [htasks]
      exact hperm
    · rw [htasks]
      have hsorted : List.Sorted (fun a b : TaskCfg => a.order ≤ b.order)
          (List.insertionSort (fun a b => a.order ≤ b.order) dt) :=
        List.sorted_insertionSort _ _
      have hnd0 : ((List.insertionSort (fun a b => a.order ≤ b.order) dt).map
          TaskCfg.order).Nodup :=
        ((hperm.map TaskCfg.order).nodup_iff).mpr hnd
      have hne0 : (List.insertionSort (fun a b => a.order ≤ b.order) dt).Pairwise
          (fun a b => a.order ≠ b.order) := by
        have hx := hnd0
        rw [List.Nodup, List.pairwise_map] at hx
        exact hx
      exact (hsorted.and hne0).imp (fun hab => lt_of_le_of_ne hab.1 hab.2)

/-- Witness for taskset_registration_order_uniqueness: registering the
two tasks of orders 2 and 1 succeeds and yields them re-ordered
ascending. -/
theorem taskset_registration_order_uniqueness_witness :
    [({ name := "_t1", order := 1 } : TaskCfg), { name := "_t2", order := 2 }].Perm
      [({ name := "_t2", order := 2 } : TaskCfg), { name := "_t1", order := 1 }]
    ∧ [({ name := "_t1", order := 1 } : TaskCfg), { name := "_t2", order := 2 }].Pairwise
        (fun a b => a.order < b.order) :=
  (taskset_registration_order_uniqueness "TS" TeddyTaskSetType.Base
      [{ name := "_t2", order := 2 }, { name := "_t1", order := 1 }]
      none none none (by decide)).2
    { name := "TS", taskset_type := TeddyTaskSetType.Base,
      task_schedule_mode := TeddyTaskScheduleMode.Sequential,
      exclusive_schedule := false,
      tasks := [{ name := "_t1", order := 1 }, { name := "_t2", order := 2 }],
      fixed_task_list := none,
      scheduling_tasks := [{ name := "_t1", order := 1 }, { name := "_t2", order := 2 }] }
    (by rfl)

/-- C10: a task-set in a fixed schedule mode that declares no
fixed_task_list gets it auto-filled with the full sorted task list (so
scheduling_tasks is the whole sorted task list) instead of failing,
while an explicitly declared empty fixed_task_list is rejected with the
empty-fixed-list error. -/
theorem fixed_mode_fixed_task_list_defaulting (c : String)
    (tst : TeddyTaskSetType) (dt : List TaskCfg) (de : Option Bool)
    (m : TeddyTaskScheduleMode) (hm : m.is_fixed_schedule_mode = true)
    (hnd : (dt.map TaskCfg.order).Nodup) (hne : dt ≠ []) :
    teddyTaskSetMeta_new c tst dt (some m) de none =
      Except.ok { name := c, taskset_type := tst, task_schedule_mode := m,
                  exclusive_schedule := teddyTaskSetMeta_exclusive_schedule de,
                  tasks := List.insertionSort (fun a b => a.order ≤ b.order) dt,
                  fixed_task_list :=
                    some (List.insertionSort (fun a b => a.order ≤ b.order) dt),
                  scheduling_tasks :=
                    List.insertionSort (fun a b => a.order ≤ b.order) dt }
    ∧ teddyTaskSetMeta_new c tst dt (some m) de (some []) =
        Except.error (TeddyError.emptyFixedTaskList c) := by
  have hperm : (List.insertionSort (fun a b => a.order ≤ b.order) dt).Perm dt :=
    List.perm_insertionSort _ _
  have hisEmpty :
      (List.insertionSort (fun a b => a.order ≤ b.order) dt).isEmpty = false := by
    rw [List.isEmpty_eq_false]
    intro hx
    apply hne
    have hp2 := hperm.symm
    rw [hx] at hp2
    exact hp2.eq_nil
  constructor
  · simp only [teddyTaskSetMeta_new, meta_new_cond_false dt hnd,
      Bool.false_eq_true, if_false, hisEmpty, Option.getD_some, hm, if_true]
  · simp only [teddyTaskSetMeta_new, meta_new_cond_false dt hnd,
      Bool.false_eq_true, if_false, hisEmpty, Option.getD_some, hm, if_true]
    simp

/-- Witness for fixed_mode_fixed_task_list_defaulting: a single-task
fixed-sequential task-set with no declared fixed list registers with the
auto-filled list, and with a declared empty list it is rejected. -/
theorem fixed_mode_fixed_task_list_defaulting_witness :
    teddyTaskSetMeta_new "TS" TeddyTaskSetType.Base
        [{ name := "_t1", order := 1 }]
        (some TeddyTaskScheduleMode.Fixed_Sequential) none none =
      Except.ok { name := "TS", taskset_type := TeddyTaskSetType.Base,
                  task_schedule_mode := TeddyTaskScheduleMode.Fixed_Sequential,
                  exclusive_schedule := teddyTaskSetMeta_exclusive_schedule none,
                  tasks := List.insertionSort (fun a b => a.order ≤ b.order)
                    [{ name := "_t1", order := 1 }],
                  fixed_task_list :=
                    some (List.insertionSort (fun a b => a.order ≤ b.order)
                      [{ name := "_t1", order := 1 }]),
                  scheduling_tasks :=
                    List.insertionSort (fun a b => a.order ≤ b.order)
                      [{ name := "_t1", order := 1 }] }
    ∧ teddyTaskSetMeta_new "TS" TeddyTaskSetType.Base
        [{ name := "_t1", order := 1 }]
        (some TeddyTaskScheduleMode.Fixed_Sequential) none (some []) =
      Except.error (TeddyError.emptyFixedTaskList "TS") :=
  fixed_mode_fixed_task_list_defaulting "TS" TeddyTaskSetType.Base
    [{ name := "_t1", order := 1 }] none TeddyTaskScheduleMode.Fixed_Sequential
    rfl (by decide) (by decide)

theorem find?_eq_some_split {α : Type} (p : α → Bool) (l : List α) (x : α)
    (h : l.find? p = some x) :
    p x = true ∧ ∃ l1 l2, l = l1 ++ x :: l2 ∧ ∀ y ∈ l1, p y = false := by
  induction l with
  | nil => simp [List.find?] at h
  | cons a tl ih =>
    by_cases hpa : p a = true
    · rw [List.find?_cons_of_pos _ hpa] at h
      injection h with h2
      subst h2
      exact ⟨hpa, [], tl, rfl, by simp⟩
    · rw [List.find?_cons_of_neg _ (by simpa using hpa)] at h
      obtain ⟨hp, l1, l2, heq, hall⟩ := ih h
      refine ⟨hp, a :: l1, l2, by rw [heq]; rfl, ?_⟩
      intro y hy
      rcases List.mem_cons.mp hy with hy1 | hy1
      · subst hy1
        exact Bool.not_eq_true _ ▸ (by simpa using hpa)
      · exact hall y hy1

theorem findTasksetIdx_spec (l : List TaskSetCfg)
    (h : (l.map TaskSetCfg.name).Nodup) (cls : TaskSetCfg) (hm : cls ∈ l) :
    ∃ i, findTasksetIdx l cls.name = some i ∧ l.get? i = some cls := by
  induction l with
  | nil => cases hm
  | cons a tl ih =>
    rw [List.map_cons] at h
    by_cases hname : (a.name == cls.name) = true
    · have heq : a.name = cls.name := by simpa using hname
      rcases List.mem_cons.mp hm with hm1 | hm1
      · subst hm1
        exact ⟨0, by simp [findTasksetIdx, hname], rfl⟩
      · exfalso
        have : cls.name ∈ tl.map TaskSetCfg.name := List.mem_map_of_mem _ hm1
        rw [← heq] at this
        exact (List.nodup_cons.mp h).1 this
    · have hneq : cls ≠ a := by
        intro hcontra
        apply hname
        rw [hcontra]
        simp
      have hmem : cls ∈ tl := by
        rcases List.mem_cons.mp hm with hm1 | hm1
        · exact absurd hm1 hneq
        · exact hm1
      obtain ⟨i, hfind, hget⟩ := ih (List.nodup_cons.mp h).2 hmem
      refine ⟨i + 1, ?_, ?_⟩
      · simp [findTasksetIdx, hname, hfind]
      · simpa using hget

theorem filterMap_map_back {α β : Type} (L : List α) (f : α → Option β)
    (g : β → Option α) (h : ∀ x ∈ L, ∃ y, f x = some y ∧ g y = some x) :
    (L.filterMap f).map g = L.map some := by
  induction L with
  | nil => rfl
  | cons a tl ih =>
    obtain ⟨y, hf, hg⟩ := h a (List.mem_cons_self a tl)
    rw [List.filterMap_cons_some hf, List.map_cons, List.map_cons, hg,
      ih (fun x hx => h x (List.mem_cons_of_mem a hx))]

theorem mem_members (t : TeddyTaskSetType) : t ∈ TeddyTaskSetType.members := by
  cases t <;> simp [TeddyTaskSetType.members]

/-- C4: for a user with at least one task-set (classes named distinctly),
top-level initialization picks the first category in declared enum order
whose schedulable class list is non-empty, installs that category's
configured schedule mode, and the scheduling list holds exactly the
instances of that category's task-set classes, in order. -/
theorem top_init_first_nonempty_category (user : UserCfg)
    (hne : user.tasks ≠ [])
    (hnames : (user.tasks.map TaskSetCfg.name).Nodup) :
    ∃ t l1 l2,
      TeddyTaskSetType.members = l1 ++ t :: l2
      ∧ (∀ t2 ∈ l1, taskset_type_2_schedulable_tasks user t2 = [])
      ∧ taskset_type_2_schedulable_tasks user t ≠ []
      ∧ (teddyTopTaskSet_init user).cur_taskset_type = some t
      ∧ (teddyTopTaskSet_init user).cur_taskset_schedule_mode =
          some (user.taskset_schedule_mode t)
      ∧ ((teddyTopTaskSet_init user).scheduling_tasksets.map
          (fun i => user.tasks.get? i))
          = (taskset_type_2_schedulable_tasks user t).map some := by
  obtain ⟨ts0, rest, hcons⟩ := List.exists_cons_of_ne_nil hne
  have hmem0 : ts0 ∈ taskset_type_2_schedulable_tasks user ts0.taskset_type := by
    apply List.mem_filter.mpr
    constructor
    · rw [hcons]
      exact List.mem_cons_self _ _
    · simp
  cases hfind : TeddyTaskSetType.members.find?
      (fun t => !(taskset_type_2_schedulable_tasks user t).isEmpty) with
  | none =>
    exfalso
    have hall := List.find?_eq_none.mp hfind ts0.taskset_type
      (mem_members ts0.taskset_type)
    apply hall
    have : taskset_type_2_schedulable_tasks user ts0.taskset_type ≠ [] :=
      List.ne_nil_of_mem hmem0
    simp [List.isEmpty_eq_false.mpr this]
  | some t0 =>
    obtain ⟨hp, l1, l2, hsplit, hprev⟩ :=
      find?_eq_some_split _ TeddyTaskSetType.members t0 hfind
    refine ⟨t0, l1, l2, hsplit, ?_, ?_, ?_, ?_, ?_⟩
    · intro t2 ht2
      have := hprev t2 ht2
      simp only [Bool.not_eq_false'] at this
      exact List.isEmpty_iff.mp this
    · intro hnil
      rw [hnil] at hp
      simp at hp
    · simp only [teddyTopTaskSet_init, hfind]
    · simp only [teddyTopTaskSet_init, hfind]
    · simp only [teddyTopTaskSet_init, hfind, update_scheduling_tasksets]
      apply filterMap_map_back
      intro cls hcls
      obtain ⟨i, hf, hg⟩ := findTasksetIdx_spec user.tasks hnames cls
        (List.mem_of_mem_filter hcls)
      exact ⟨i, hf, hg⟩

/-- A concrete task-set class and user for exercising top-level
initialization: the user declares a single Func task-set, so Base is
empty and Func is the first non-empty category. -/
def tasksetFuncA : TaskSetCfg :=
  { name := "FuncA", taskset_type := TeddyTaskSetType.Func,
    task_schedule_mode := TeddyTaskScheduleMode.Sequential,
    exclusive_schedule := false,
    tasks := [{ name := "_t1", order := 1 }],
    fixed_task_list := none,
    scheduling_tasks := [{ name := "_t1", order := 1 }] }

def userC4 : UserCfg :=
  { tasks := [tasksetFuncA],
    taskset_schedule_mode := TeddyTaskSetType.get_default_schedule_mode,
    exclusive_schedule := true }

/-- Witness for top_init_first_nonempty_category at the single-Func-task-set
user. -/
theorem top_init_first_nonempty_category_witness :
    ∃ t l1 l2,
      TeddyTaskSetType.members = l1 ++ t :: l2
      ∧ (∀ t2 ∈ l1, taskset_type_2_schedulable_tasks userC4 t2 = [])
      ∧ taskset_type_2_schedulable_tasks userC4 t ≠ []
      ∧ (teddyTopTaskSet_init userC4).cur_taskset_type = some t
      ∧ (teddyTopTaskSet_init userC4).cur_taskset_schedule_mode =
          some (userC4.taskset_schedule_mode t)
      ∧ ((teddyTopTaskSet_init userC4).scheduling_tasksets.map
          (fun i => userC4.tasks.get? i))
          = (taskset_type_2_schedulable_tasks userC4 t).map some :=
  top_init_first_nonempty_category userC4 (by decide) (by decide)

theorem modifyAt_get? (f : TaskSetState → TaskSetState) (p : Nat)
    (l : List TaskSetState) :
    (modifyAt f p l).get? p = (l.get? p).map f := by
  induction l generalizing p with
  | nil => cases p <;> rfl
  | cons s rest ih =>
    cases p with
    | zero => rfl
    | succ p2 =>
      simp only [modifyAt, List.get?_cons_succ]
      exact ih p2

theorem jump_update_top_taskset_states (user : UserCfg) (st : TeddyTopTaskSet)
    (p_cur q : Nat) (to_ts_idx : Int) :
    (jump_update_top user st p_cur q to_ts_idx).taskset_states =
      st.taskset_states := by
  unfold jump_update_top
  dsimp only
  repeat' split
  all_goals rfl

/-- C1 amended: jump_to_task validates the task identifier before any
mutation, so an unresolvable identifier raises the error with all
scheduler state unchanged; a jump_to_taskset whose task-SET identifier
is unresolvable likewise raises with state unchanged; but a
jump_to_taskset whose target task-set resolves to a different task-set
and whose TASK identifier is unresolvable raises the error only after
the outgoing task-set's execution counter and task cursor were already
reset (and the top-level task-set cursor already moved). -/
theorem jump_validation_state_effects (user : UserCfg) (st : TeddyTopTaskSet)
    (rand : Nat) (nm : String) (taskRef : Option TaskRef) (immediately : Bool)
    (p_cur : Nat) (e : TeddyError) :
    (∀ cfg, get_cur_taskset_pos st = some p_cur →
        user.tasks.get? p_cur = some cfg →
        locate_task cfg rand taskRef = Except.error e →
        jump_to_task user st rand taskRef immediately = (st, Except.error e))
    ∧ (get_cur_taskset_pos st = some p_cur →
        findTasksetIdx user.tasks nm = none →
        jump_to_taskset user st rand (some nm) taskRef immediately =
          (st, Except.error TeddyError.tasksetNotFound))
    ∧ (∀ q to_cfg, get_cur_taskset_pos st = some p_cur →
        findTasksetIdx user.tasks nm = some q → q ≠ p_cur →
        user.tasks.get? q = some to_cfg →
        locate_task to_cfg rand taskRef = Except.error e →
        (jump_to_taskset user st rand (some nm) taskRef immediately).2 =
            Except.error e
          ∧ (jump_to_taskset user st rand (some nm) taskRef
              immediately).1.taskset_states.get? p_cur =
              (st.taskset_states.get? p_cur).map
                (fun s => { s with exec_times := 0, cur_task_index := -1 })) := by
  refine ⟨?_, ?_, ?_⟩
  · intro cfg hp hcfg hloc
    simp only [jump_to_task, hp, hcfg, hloc]
  · intro hp hnone
    simp only [jump_to_taskset, hp, hnone]
  · intro q to_cfg hp hq hqe hcfg hloc
    have hcond : (q == p_cur && ((-1 : Int) == -1)) = false := by
      simp [hqe]
    have hres : jump_to_taskset user st rand (some nm) taskRef immediately =
        (jump_update_top user (jump_outgoing_reset st p_cur) p_cur q (-1),
         Except.error e) := by
      simp only [jump_to_taskset, hp, hq, hcond, Bool.false_eq_true, if_false,
        hcfg, hloc]
    rw [hres]
    refine ⟨rfl, ?_⟩
    rw [jump_update_top_taskset_states]
    exact modifyAt_get? _ p_cur st.taskset_states

/-- Concrete two-task-set configuration for the jump counterexample:
the user owns TaskSetA (active, mid-run) and TaskSetB, both of the Base
category. -/
def tasksetA : TaskSetCfg :=
  { name := "TaskSetA", taskset_type := TeddyTaskSetType.Base,
    task_schedule_mode := TeddyTaskScheduleMode.Sequential,
    exclusive_schedule := false,
    tasks := [{ name := "_a1", order := 1 }],
    fixed_task_list := none,
    scheduling_tasks := [{ name := "_a1", order := 1 }] }

def tasksetB : TaskSetCfg :=
  { name := "TaskSetB", taskset_type := TeddyTaskSetType.Base,
    task_schedule_mode := TeddyTaskScheduleMode.Sequential,
    exclusive_schedule := false,
    tasks := [{ name := "_b1", order := 1 }],
    fixed_task_list := none,
    scheduling_tasks := [{ name := "_b1", order := 1 }] }

def userC1 : UserCfg :=
  { tasks := [tasksetA, tasksetB],
    taskset_schedule_mode := TeddyTaskSetType.get_default_schedule_mode,
    exclusive_schedule := true }

/-- A snapshot mid-run: TaskSetA is active (top cursor 0), its task
cursor at slot 0, and it has executed once. -/
def stC1 : TeddyTopTaskSet :=
  { taskset_states :=
      [{ cur_task_index := 0, exec_times := 1, task_queue := [0] },
       { cur_task_index := -1, exec_times := 0, task_queue := [] }],
    cur_taskset_index := 0,
    scheduling_tasksets := [0, 1],
    cur_taskset_type := some TeddyTaskSetType.Base,
    cur_taskset_schedule_mode := some TeddyTaskScheduleMode.Sequential,
    task_queue := [0] }

/-- C1 counterexample: jump_to_taskset to the resolvable TaskSetB with
the unresolvable task order 99 raises the task-not-found error, yet the
outgoing TaskSetA's execution counter (1 → 0) and task cursor (0 → −1)
and the top-level task-set cursor (0 → 1) have already been mutated —
the claim's validate-then-commit ordering fails for the task identifier
of jump_to_taskset. -/
theorem jump_to_taskset_mutation_counterexample :
    (jump_to_taskset userC1 stC1 0 (some "TaskSetB")
        (some (TaskRef.byOrder 99)) true).2
      = Except.error (TeddyError.taskNotFound "TaskSetB")
    ∧ stC1.taskset_states.get? 0 =
        some { cur_task_index := 0, exec_times := 1, task_queue := [0] }
    ∧ (jump_to_taskset userC1 stC1 0 (some "TaskSetB")
        (some (TaskRef.byOrder 99)) true).1.taskset_states.get? 0 =
        some { cur_task_index := -1, exec_times := 0, task_queue := [0] }
    ∧ stC1.cur_taskset_index = 0
    ∧ (jump_to_taskset userC1 stC1 0 (some "TaskSetB")
        (some (TaskRef.byOrder 99)) true).1.cur_taskset_index = 1 :=
  ⟨rfl, rfl, rfl, rfl, rfl⟩

/-- Witness for jump_validation_state_effects at the concrete
configuration of the counterexample. -/
theorem jump_validation_state_effects_witness :
    (jump_to_taskset userC1 stC1 0 (some "TaskSetB")
        (some (TaskRef.byOrder 99)) true).2 =
      Except.error (TeddyError.taskNotFound "TaskSetB")
    ∧ (jump_to_taskset userC1 stC1 0 (some "TaskSetB")
        (some (TaskRef.byOrder 99)) true).1.taskset_states.get? 0 =
        (stC1.taskset_states.get? 0).map
          (fun s => { s with exec_times := 0, cur_task_index := -1 }) :=
  (jump_validation_state_effects userC1 stC1 0 "TaskSetB"
      (some (TaskRef.byOrder 99)) true 0
      (TeddyError.taskNotFound "TaskSetB")).2.2 1 tasksetB
    rfl rfl (by decide) rfl rfl

end Teddy
